import Mathlib

/-!
libbitcoin-explorer: callback_state, send-tx-node and settings.

A shallow embedding of `src/callback_state.cpp`, `src/commands/send-tx-node.cpp`
and `src/commands/settings.cpp`.

* `size_t` is a natural number below `2 ^ w`; `++` and `--` are written with an
  explicit `% 2 ^ w`, the width `w` being an argument of every operation that
  does arithmetic on the counter.
* A `std::ostream` is the list of the texts written to it by one
  `stream << message << std::endl` each, oldest first.
* Member functions take the object as an argument and return the updated
  object, together with the C++ return value when there is one.
-/

namespace libbitcoin
namespace explorer

/-! ## Types declared in headers -/

/-- The enumeration `console_result` of define.hpp. The sources here name
`console_result::okay` and `console_result::failure`. -/
inductive console_result where
  | failure
  | okay
  | invalid
  deriving DecidableEq, Repr

/-- The enumeration `encoding_engine` of primitives/encoding.hpp, a member being
identified by its ordinal. The sources here name `encoding_engine::info` only. -/
structure encoding_engine where
  ordinal : Nat
  deriving DecidableEq, Repr

/-- The member `encoding_engine::info`. -/
def encoding_engine.info : encoding_engine := ⟨0⟩

/-- A `std::error_code`: the numeric value, and the text `message()` returns.
Its conversion to `bool` is `value != 0`. -/
structure error_code where
  value : Int
  message : String
  deriving DecidableEq, Repr

/-- The conversion `explicit operator bool` of `std::error_code`. -/
def error_code.to_bool (code : error_code) : Bool := code.value != 0

/-- A `std::ostream`: the messages written with `<< message << std::endl`. -/
abbrev ostream := List String

/-- What the sources take from headers and libraries: `boost::format(f) % x`
rendered as text, the default value of the parameter `format` of
`callback_state::succeeded`, the text of the macro `BX_SEND_TX_NODE_OUTPUT`
and the value `now()` returns when `handle_send` runs. -/
structure library where
  boost_format : String → String → String
  default_format : String
  BX_SEND_TX_NODE_OUTPUT : String
  now : String

/-! ## callback_state.cpp -/

/-- The data members of `callback_state`. -/
structure callback_state where
  stopped_ : Bool
  refcount_ : Nat
  result_ : console_result
  engine_ : encoding_engine
  error_ : ostream
  output_ : ostream
  deriving DecidableEq, Repr

namespace callback_state

/-- Constructor `callback_state(error, output, engine)`. -/
def construct (error output : ostream) (engine : encoding_engine) : callback_state :=
  { stopped_ := true, refcount_ := 0, result_ := console_result.okay,
    engine_ := engine, error_ := error, output_ := output }

/-- Constructor `callback_state(error, output)`. -/
def construct_default (error output : ostream) : callback_state :=
  construct error output encoding_engine.info

/-- Member `error(const format& message)`: `error_ << message << std::endl`. -/
def error (s : callback_state) (message : String) : callback_state :=
  { s with error_ := s.error_ ++ [message] }

/-- Member `output(const format& message)`: `output_ << message << std::endl`. -/
def output (s : callback_state) (message : String) : callback_state :=
  { s with output_ := s.output_ ++ [message] }

/-- Member `start()`. -/
def start (s : callback_state) : callback_state :=
  { s with refcount_ := 1, stopped_ := false, result_ := console_result.okay }

/-- Member `stop(result)`. -/
def stop (s : callback_state) (result : console_result) : callback_state :=
  { s with refcount_ := 0, stopped_ := true, result_ := result }

/-- Member `stopped()`. -/
def stopped (s : callback_state) : Bool := s.stopped_

/-- Member `succeeded(code, format)`: the returned flag and the object after
the call. -/
def succeeded (lib : library) (s : callback_state) (code : error_code)
    (format : String) : Bool × callback_state :=
  if code.to_bool then
    (false, stop (error s (lib.boost_format format code.message)) console_result.failure)
  else
    (true, s)

/-- Member `get_engine()`. -/
def get_engine (s : callback_state) : encoding_engine := s.engine_

/-- Member `get_result()`. -/
def get_result (s : callback_state) : console_result := s.result_

/-- Member `set_result(result)`. -/
def set_result (s : callback_state) (result : console_result) : callback_state :=
  { s with result_ := result }

/-- Member `increment()`: `if (++refcount_ != 0) stopped_ = false;` and the
value returned. -/
def increment (w : Nat) (s : callback_state) : Nat × callback_state :=
  let s1 := { s with refcount_ := (s.refcount_ + 1) % 2 ^ w }
  let s2 := if s1.refcount_ != 0 then { s1 with stopped_ := false } else s1
  (s2.refcount_, s2)

/-- Member `decrement()`: `if (--refcount_ == 0) stopped_ = true;` and the
value returned. -/
def decrement (w : Nat) (s : callback_state) : Nat × callback_state :=
  let s1 := { s with refcount_ := (s.refcount_ + 2 ^ w - 1) % 2 ^ w }
  let s2 := if s1.refcount_ == 0 then { s1 with stopped_ := true } else s1
  (s2.refcount_, s2)

/-- Conversion `operator size_t()`. -/
def to_size_t (s : callback_state) : Nat := s.refcount_

/-- Member `operator++()`. -/
def pre_increment (w : Nat) (s : callback_state) : callback_state := (increment w s).2

/-- Member `operator--()`. -/
def pre_decrement (w : Nat) (s : callback_state) : callback_state := (decrement w s).2

end callback_state

/-! ## Sequences of calls on a callback_state -/

/-- One call of a state-changing member of `callback_state`. -/
inductive operation where
  | start
  | stop (result : console_result)
  | increment
  | decrement
  | succeeded (code : error_code) (format : String)
  | set_result (result : console_result)
  deriving DecidableEq, Repr

namespace callback_state

/-- The object after one call. -/
def apply (lib : library) (w : Nat) (s : callback_state) : operation → callback_state
  | operation.start => start s
  | operation.stop result => stop s result
  | operation.increment => (increment w s).2
  | operation.decrement => (decrement w s).2
  | operation.succeeded code format => (succeeded lib s code format).2
  | operation.set_result result => set_result s result

/-- The object after a sequence of calls, first call first. -/
def run (lib : library) (w : Nat) (s : callback_state) (ops : List operation) :
    callback_state :=
  ops.foldl (apply lib w) s

/-- The object after `n` calls of `decrement()`. -/
def decrements (w : Nat) : Nat → callback_state → callback_state
  | 0, s => s
  | n + 1, s => decrements w n (decrement w s).2

/-- The completion invariant: stopped exactly when no reference is held. -/
def completion_invariant (s : callback_state) : Prop :=
  s.stopped_ = true ↔ s.refcount_ = 0

instance (s : callback_state) : Decidable (completion_invariant s) := by
  unfold completion_invariant
  exact inferInstance

/-- The call makes the counter wrap around: `decrement()` at count zero, or
`increment()` that brings the count back to zero. -/
def wraps (w : Nat) (s : callback_state) : operation → Bool
  | operation.increment => (s.refcount_ + 1) % 2 ^ w == 0
  | operation.decrement => s.refcount_ == 0
  | _ => false

/-- No call of the sequence makes the counter wrap around. -/
def no_wrap (lib : library) (w : Nat) : callback_state → List operation → Bool
  | _, [] => true
  | s, op :: ops => !wraps w s op && no_wrap lib w (apply lib w s op) ops

end callback_state

/-! ## commands/send-tx-node.cpp -/

namespace commands
namespace send_tx_node

/-- The lambda `handle_send`. -/
def handle_send (lib : library) (w : Nat) (state : callback_state) (code : error_code) :
    callback_state :=
  let r := callback_state.succeeded lib state code lib.default_format
  let s1 :=
    if r.1 then
      callback_state.output r.2 (lib.boost_format lib.BX_SEND_TX_NODE_OUTPUT lib.now)
    else r.2
  callback_state.pre_decrement w s1

/-- The lambda `handle_connect`: the tracker after the call, and whether
`node->send(transaction, handle_send)` was called. -/
def handle_connect (lib : library) (state : callback_state) (code : error_code) :
    callback_state × Bool :=
  let r := callback_state.succeeded lib state code lib.default_format
  (r.2, r.1)

/-- Modelled from the spec: the P2P session (`proto.subscribe_channel`,
`proto.maintain_connection`, `node->send`, of the network library) calls the
subscribed handler once with the connect code, and calls the handler handed to
`node->send` once with the send code. The result is the tracker after the last
callback and whether the transaction was handed to the channel. -/
def session (lib : library) (w : Nat) (state : callback_state)
    (connect_code send_code : error_code) : callback_state × Bool :=
  let c := handle_connect lib state connect_code
  if c.2 then (handle_send lib w c.1 send_code, true) else (c.1, false)

/-- The tracker of `invoke` once the callbacks have run: constructed, armed with
`++state`, then driven by the session. -/
def callbacks (lib : library) (w : Nat) (output error : ostream)
    (connect_code send_code : error_code) : callback_state × Bool :=
  let state := callback_state.construct_default error output
  let state := callback_state.pre_increment w state
  session lib w state connect_code send_code

/-- What `invoke` leaves behind: the value returned, when it returns, the two
console streams and whether the transaction was handed to the channel. -/
structure outcome where
  result : Option console_result
  output : ostream
  error : ostream
  sent : Bool
  deriving DecidableEq, Repr

/-- Modelled from the spec: `client.poll(state.stopped())` of async_client.hpp
returns once the flag it is given is true; when every callback has run and the
flag is false it never returns (`none`). -/
def poll (state : callback_state) : Option callback_state :=
  if state.stopped then some state else none

/-- The command `send_tx_node::invoke(output, error)`: the value returned is
`state.get_result()` when `poll` returns, and `none` when it does not. -/
def invoke (lib : library) (w : Nat) (output error : ostream)
    (connect_code send_code : error_code) : outcome :=
  let r := callbacks lib w output error connect_code send_code
  { result := (poll r.1).map callback_state.get_result,
    output := r.1.output_, error := r.1.error_, sent := r.2 }

end send_tx_node

/-! ## commands/settings.cpp -/

namespace settings

/-- The type `settings_list`, a `std::map<std::string, std::string>`: the
entries in increasing order of key. -/
abbrev settings_list := List (String × String)

/-- The assignment `list[key] = value` of `std::map`, the keys being compared
as `std::string` compares them, character by character. -/
def assign : settings_list → String → String → settings_list
  | [], key, value => [(key, value)]
  | (k, v) :: rest, key, value =>
    if key = k then (key, value) :: rest
    else if key.data < k.data then (key, value) :: (k, v) :: rest
    else (k, v) :: assign rest key value

/-- The keys of a `settings_list`, in order. -/
def keys (list : settings_list) : List String := list.map Prod.fst

/-- The value stored under a key, if any. -/
def find (list : settings_list) (key : String) : Option String :=
  (list.find? (fun e => e.1 == key)).map Prod.snd

/-- Modelled from the spec: `join(words, delimiter)` of utility.hpp, the words
in order with the delimiter between each two of them, nothing before the first
and nothing after the last. -/
def join : List String → String → String
  | [], _ => ""
  | [word], _ => word
  | word :: next :: rest, delimiter => word ++ delimiter ++ join (next :: rest) delimiter

/-- The configured settings the command reads through its `get_*_setting()`
getters, and its `format` option: numbers for the versions, the identifier,
the retries and the timeouts, the text of `path::string()` for the files, and
the library types `endpoint` and `base85` for the seeds, the url and the key. -/
structure configuration (endpoint base85 : Type) where
  format_option : encoding_engine
  wallet_wif_version : Nat
  wallet_hd_public_version : Nat
  wallet_hd_secret_version : Nat
  wallet_pay_to_public_key_hash_version : Nat
  wallet_pay_to_script_hash_version : Nat
  wallet_transaction_version : Nat
  network_identifier : Nat
  network_connect_retries : Nat
  network_connect_timeout_seconds : Nat
  network_channel_handshake_seconds : Nat
  network_hosts_file : String
  network_debug_file : String
  network_error_file : String
  network_seeds : List endpoint
  server_url : endpoint
  server_connect_retries : Nat
  server_connect_timeout_seconds : Nat
  server_server_cert_key : base85
  server_cert_file : String

/-- What settings.cpp takes from headers and libraries: `serialize`,
`endpoint::to_string`, `get_base85`, the list `network::session_seed::mainnet`,
`prop_tree` on a `settings_list` and `write_stream`. -/
structure settings_library (endpoint base85 ptree : Type) where
  serialize : Nat → String
  to_string : endpoint → String
  get_base85 : base85 → String
  mainnet : List endpoint
  prop_tree : settings_list → ptree
  write_stream : ostream → ptree → encoding_engine → ostream

variable {endpoint base85 ptree : Type}

/-- Lines 73 to 82 of `settings::invoke`: the text stored under
`network.seeds`. -/
def seeds_value (lib : settings_library endpoint base85 ptree)
    (cfg : configuration endpoint base85) : String :=
  let nodes := cfg.network_seeds
  let seeds := if nodes.isEmpty then lib.mainnet else nodes
  let buffer := seeds.foldl (fun buffer seed => buffer ++ [lib.to_string seed]) []
  join buffer ","

/-- Lines 41 to 94 of `settings::invoke`: the `settings_list` handed to
`prop_tree`. -/
def build_list (lib : settings_library endpoint base85 ptree)
    (cfg : configuration endpoint base85) : settings_list :=
  let list : settings_list := []
  let list := assign list "wallet.wif_version" (lib.serialize cfg.wallet_wif_version)
  let list := assign list "wallet.hd_public_version"
    (lib.serialize cfg.wallet_hd_public_version)
  let list := assign list "wallet.hd_secret_version"
    (lib.serialize cfg.wallet_hd_secret_version)
  let list := assign list "wallet.pay_to_public_key_hash_version"
    (lib.serialize cfg.wallet_pay_to_public_key_hash_version)
  let list := assign list "wallet.pay_to_script_hash_version"
    (lib.serialize cfg.wallet_pay_to_script_hash_version)
  let list := assign list "wallet.transaction_version"
    (lib.serialize cfg.wallet_transaction_version)
  let list := assign list "network.identifier" (lib.serialize cfg.network_identifier)
  let list := assign list "network.connect_retries"
    (lib.serialize cfg.network_connect_retries)
  let list := assign list "network.connect_timeout_seconds"
    (lib.serialize cfg.network_connect_timeout_seconds)
  let list := assign list "network.channel_handshake_seconds"
    (lib.serialize cfg.network_channel_handshake_seconds)
  let list := assign list "network.hosts_file" cfg.network_hosts_file
  let list := assign list "network.debug_file" cfg.network_debug_file
  let list := assign list "network.error_file" cfg.network_error_file
  let list := assign list "network.seeds" (seeds_value lib cfg)
  let list := assign list "server.url" (lib.to_string cfg.server_url)
  let list := assign list "server.connect_retries"
    (lib.serialize cfg.server_connect_retries)
  let list := assign list "server.connect_timeout_seconds"
    (lib.serialize cfg.server_connect_timeout_seconds)
  let list := assign list "server.server_cert_key"
    (lib.get_base85 cfg.server_server_cert_key)
  let list := assign list "server.cert_file" cfg.server_cert_file
  list

/-- What `settings::invoke` leaves behind: the value returned and the two
console streams. -/
structure outcome where
  result : console_result
  output : ostream
  error : ostream

/-- The command `settings::invoke(output, error)`. -/
def invoke (lib : settings_library endpoint base85 ptree)
    (cfg : configuration endpoint base85) (output error : ostream) : outcome :=
  let encoding := cfg.format_option
  let list := build_list lib cfg
  { result := console_result.okay,
    output := lib.write_stream output (lib.prop_tree list) encoding,
    error := error }

/-- The 19 keys the command dumps, in the order of `std::map`. -/
def expected_keys : List String :=
  [ "network.channel_handshake_seconds", "network.connect_retries",
    "network.connect_timeout_seconds", "network.debug_file", "network.error_file",
    "network.hosts_file", "network.identifier", "network.seeds",
    "server.cert_file", "server.connect_retries", "server.connect_timeout_seconds",
    "server.server_cert_key", "server.url",
    "wallet.hd_public_version", "wallet.hd_secret_version",
    "wallet.pay_to_public_key_hash_version", "wallet.pay_to_script_hash_version",
    "wallet.transaction_version", "wallet.wif_version" ]

end settings
end commands

/-! ## Concrete instances -/

/-- A library for concrete runs: the formatted text is the format followed by
the argument. -/
def sample_library : library :=
  { boost_format := fun format text => format ++ text,
    default_format := "%1%",
    BX_SEND_TX_NODE_OUTPUT := "Sent transaction at %1%.",
    now := "2015-01-01T00:00:00" }

/-- An error code that carries no error. -/
def sample_success : error_code := { value := 0, message := "success" }

/-- An error code that carries an error. -/
def sample_failure : error_code := { value := 1, message := "operation failed" }

/-- The largest value of a 64-bit `size_t`. -/
def SIZE_MAX_64 : Nat := 18446744073709551615

/-! ## Arithmetic of the counter -/

theorem add_one_sub_one_mod (m c : Nat) (hc : c < m) :
    ((c + 1) % m + m - 1) % m = c := by
  by_cases h : c + 1 < m
  · rw [Nat.mod_eq_of_lt h]
    have e : c + 1 + m - 1 = c + m := by omega
    rw [e, Nat.add_mod_right, Nat.mod_eq_of_lt hc]
  · have e : c + 1 = m := by omega
    rw [e, Nat.mod_self]
    have e2 : 0 + m - 1 = c := by omega
    rw [e2, Nat.mod_eq_of_lt hc]

theorem sub_one_add_one_mod (m c : Nat) (hc : c < m) :
    ((c + m - 1) % m + 1) % m = c := by
  by_cases h : c = 0
  · subst h
    have e : (0 + m - 1) = m - 1 := by omega
    have h1 : m - 1 < m := by omega
    rw [e, Nat.mod_eq_of_lt h1]
    have e2 : m - 1 + 1 = m := by omega
    rw [e2, Nat.mod_self]
  · have e : c + m - 1 = (c - 1) + m := by omega
    have h1 : c - 1 < m := by omega
    rw [e, Nat.add_mod_right, Nat.mod_eq_of_lt h1]
    have e2 : c - 1 + 1 = c := by omega
    rw [e2, Nat.mod_eq_of_lt hc]

theorem sub_one_mod_of_pos (m c : Nat) (hc : c < m) (h0 : c ≠ 0) :
    (c + m - 1) % m = c - 1 := by
  have e : c + m - 1 = (c - 1) + m := by omega
  have h1 : c - 1 < m := by omega
  rw [e, Nat.add_mod_right, Nat.mod_eq_of_lt h1]

theorem one_mod_sub_one_mod (m : Nat) (hm : 0 < m) : (1 % m + m - 1) % m = 0 := by
  have := add_one_sub_one_mod m 0 hm
  simpa using this

namespace callback_state

/-! ## Single calls -/

theorem increment_fst (w : Nat) (s : callback_state) :
    (increment w s).1 = (increment w s).2.refcount_ := by
  rfl

theorem decrement_fst (w : Nat) (s : callback_state) :
    (decrement w s).1 = (decrement w s).2.refcount_ := by
  rfl

theorem increment_refcount (w : Nat) (s : callback_state) :
    (increment w s).2.refcount_ = (s.refcount_ + 1) % 2 ^ w := by
  unfold increment
  simp only
  split <;> rfl

theorem decrement_refcount (w : Nat) (s : callback_state) :
    (decrement w s).2.refcount_ = (s.refcount_ + 2 ^ w - 1) % 2 ^ w := by
  unfold decrement
  simp only
  split <;> rfl

theorem increment_stopped (w : Nat) (s : callback_state) :
    (increment w s).2.stopped_ =
      if (s.refcount_ + 1) % 2 ^ w = 0 then s.stopped_ else false := by
  unfold increment
  by_cases h : (s.refcount_ + 1) % 2 ^ w = 0 <;> simp [h]

theorem decrement_stopped (w : Nat) (s : callback_state) :
    (decrement w s).2.stopped_ =
      if (s.refcount_ + 2 ^ w - 1) % 2 ^ w = 0 then true else s.stopped_ := by
  unfold decrement
  by_cases h : (s.refcount_ + 2 ^ w - 1) % 2 ^ w = 0 <;> simp [h]

theorem increment_rest (w : Nat) (s : callback_state) :
    (increment w s).2.result_ = s.result_ ∧ (increment w s).2.engine_ = s.engine_ ∧
    (increment w s).2.error_ = s.error_ ∧ (increment w s).2.output_ = s.output_ := by
  unfold increment
  by_cases h : (s.refcount_ + 1) % 2 ^ w = 0 <;> simp [h]

theorem decrement_rest (w : Nat) (s : callback_state) :
    (decrement w s).2.result_ = s.result_ ∧ (decrement w s).2.engine_ = s.engine_ ∧
    (decrement w s).2.error_ = s.error_ ∧ (decrement w s).2.output_ = s.output_ := by
  unfold decrement
  by_cases h : (s.refcount_ + 2 ^ w - 1) % 2 ^ w = 0 <;> simp [h]

theorem ext_fields (a b : callback_state) (h1 : a.stopped_ = b.stopped_)
    (h2 : a.refcount_ = b.refcount_) (h3 : a.result_ = b.result_)
    (h4 : a.engine_ = b.engine_) (h5 : a.error_ = b.error_)
    (h6 : a.output_ = b.output_) : a = b := by
  cases a
  cases b
  simp_all

theorem succeeded_of_error (lib : library) (s : callback_state) (code : error_code)
    (format : String) (h : code.value ≠ 0) :
    succeeded lib s code format =
      (false, stop (error s (lib.boost_format format code.message)) console_result.failure) := by
  simp [succeeded, error_code.to_bool, h]

theorem succeeded_of_success (lib : library) (s : callback_state) (code : error_code)
    (format : String) (h : code.value = 0) :
    succeeded lib s code format = (true, s) := by
  simp [succeeded, error_code.to_bool, h]

/-! ## The completion invariant -/

theorem completion_invariant_apply (lib : library) (w : Nat) (s : callback_state)
    (op : operation) (hinv : completion_invariant s) (hw : wraps w s op = false) :
    completion_invariant (apply lib w s op) := by
  unfold completion_invariant at hinv ⊢
  cases op with
  | start => simp [apply, start]
  | stop result => simp [apply, stop]
  | increment =>
    have h : (s.refcount_ + 1) % 2 ^ w ≠ 0 := by simpa [wraps] using hw
    simp only [apply]
    rw [increment_stopped, increment_refcount]
    simp [h]
  | decrement =>
    have h : s.refcount_ ≠ 0 := by simpa [wraps] using hw
    have hs : s.stopped_ = false := by
      cases hst : s.stopped_ with
      | false => rfl
      | true => exact absurd (hinv.mp hst) h
    simp only [apply]
    rw [decrement_stopped, decrement_refcount]
    by_cases h2 : (s.refcount_ + 2 ^ w - 1) % 2 ^ w = 0 <;> simp [h2, hs]
  | succeeded code format =>
    by_cases hc : code.value = 0
    · simp only [apply]
      rw [succeeded_of_success lib s code format hc]
      exact hinv
    · simp only [apply]
      rw [succeeded_of_error lib s code format hc]
      simp [stop]
  | set_result result => simpa [apply, set_result] using hinv

theorem completion_invariant_run (lib : library) (w : Nat) (ops : List operation) :
    ∀ s : callback_state, completion_invariant s → no_wrap lib w s ops = true →
      completion_invariant (run lib w s ops) := by
  induction ops with
  | nil => intro s hinv _; simpa [run] using hinv
  | cons op ops ih =>
    intro s hinv hno
    have hno2 : wraps w s op = false ∧ no_wrap lib w (apply lib w s op) ops = true := by
      simpa [no_wrap] using hno
    have := ih (apply lib w s op) (completion_invariant_apply lib w s op hinv hno2.1) hno2.2
    simpa [run] using this

/-- C1, as stated, fails: on a freshly constructed tracker one call of
`decrement()` leaves the stopped flag true with a reference count of
`2 ^ 64 - 1`, not zero. -/
theorem completion_invariant_fails_after_decrement :
    ¬ completion_invariant
        (run sample_library 64 (construct [] [] encoding_engine.info)
          [operation.decrement]) := by
  decide

/-- C1, amended: in every state reached from a freshly constructed tracker by a
sequence of `start`, `stop`, `increment`, `decrement`, `succeeded` and
`set_result` in which no call makes the counter wrap around (no `decrement` at
count zero, no `increment` that brings the count back to zero), the stopped flag
is true exactly when the reference count is zero. -/
theorem completion_invariant_of_no_wrap (lib : library) (w : Nat)
    (error output : ostream) (engine : encoding_engine) (ops : List operation)
    (h : no_wrap lib w (construct error output engine) ops = true) :
    completion_invariant (run lib w (construct error output engine) ops) := by
  apply completion_invariant_run lib w ops _ _ h
  simp [completion_invariant, construct]

/-- C1, amended, at a concrete run on a 64-bit counter. -/
theorem completion_invariant_of_no_wrap_witness :
    no_wrap sample_library 64 (construct [] [] encoding_engine.info)
        [operation.increment, operation.increment, operation.decrement,
         operation.succeeded sample_failure "%1%", operation.start,
         operation.set_result console_result.invalid, operation.decrement] = true ∧
    completion_invariant
      (run sample_library 64 (construct [] [] encoding_engine.info)
        [operation.increment, operation.increment, operation.decrement,
         operation.succeeded sample_failure "%1%", operation.start,
         operation.set_result console_result.invalid, operation.decrement]) :=
  ⟨by decide, completion_invariant_of_no_wrap sample_library 64 [] []
    encoding_engine.info _ (by decide)⟩

theorem run_append (lib : library) (w : Nat) (s : callback_state)
    (ops more : List operation) :
    run lib w s (ops ++ more) = run lib w (run lib w s ops) more := by
  simp [run, List.foldl_append]

theorem run_increments (lib : library) (w : Nat) (error output : ostream)
    (engine : encoding_engine) (n : Nat) :
    n < 2 ^ w →
      (run lib w (construct error output engine)
        (List.replicate n operation.increment)).refcount_ = n ∧
      (0 < n → (run lib w (construct error output engine)
        (List.replicate n operation.increment)).stopped_ = false) := by
  induction n with
  | zero => intro _; simp [run, construct]
  | succ n ih =>
    intro hn
    have h := ih (by omega)
    have hm : (n + 1) % 2 ^ w = n + 1 := Nat.mod_eq_of_lt hn
    rw [List.replicate_succ', run_append]
    simp only [run, List.foldl_cons, List.foldl_nil, apply] at h ⊢
    rw [increment_refcount, increment_stopped, h.1, hm]
    simp

theorem run_increments_wrap (lib : library) (w : Nat) (error output : ostream)
    (engine : encoding_engine) (n : Nat) (hpos : 0 < n) (hn : n + 1 = 2 ^ w) :
    ¬ completion_invariant
        (run lib w (construct error output engine)
          (List.replicate (n + 1) operation.increment)) := by
  have h := run_increments lib w error output engine n (by omega)
  have h2 := h.2 hpos
  have hm : (n + 1) % 2 ^ w = 0 := by rw [hn, Nat.mod_self]
  rw [List.replicate_succ', run_append]
  simp only [run, List.foldl_cons, List.foldl_nil, apply] at h h2 ⊢
  unfold completion_invariant
  rw [increment_refcount, increment_stopped, h.1, h2, hm]
  simp

/-- The counter of C1 wraps upwards as well: `2 ^ 64` calls of `increment()` on
a freshly constructed tracker leave a reference count of zero with the stopped
flag false. -/
theorem completion_invariant_fails_after_wrapping_increments :
    ¬ completion_invariant
        (run sample_library 64 (construct [] [] encoding_engine.info)
          (List.replicate (SIZE_MAX_64 + 1) operation.increment)) :=
  run_increments_wrap sample_library 64 [] [] encoding_engine.info SIZE_MAX_64
    (by decide) (by decide)

/-! ## succeeded -/

/-- C2: `succeeded(code, format)` returns true exactly when the code carries no
error; then the object is unchanged. When it returns false the reference count
is zero whatever it was, the tracker is stopped with result failure, one line,
the formatted message of the code, has been appended to the error stream, and
the output stream and the engine are unchanged. -/
theorem succeeded_contract (lib : library) (s : callback_state) (code : error_code)
    (format : String) :
    ((succeeded lib s code format).1 = true ↔ code.value = 0) ∧
    ((succeeded lib s code format).1 = true → (succeeded lib s code format).2 = s) ∧
    ((succeeded lib s code format).1 = false →
      (succeeded lib s code format).2.refcount_ = 0 ∧
      (succeeded lib s code format).2.stopped_ = true ∧
      (succeeded lib s code format).2.result_ = console_result.failure ∧
      (succeeded lib s code format).2.error_ =
        s.error_ ++ [lib.boost_format format code.message] ∧
      ((succeeded lib s code format).2.error_).length = s.error_.length + 1 ∧
      (succeeded lib s code format).2.output_ = s.output_ ∧
      (succeeded lib s code format).2.engine_ = s.engine_) := by
  by_cases hc : code.value = 0
  · rw [succeeded_of_success lib s code format hc]
    simp [hc]
  · rw [succeeded_of_error lib s code format hc]
    simp [hc, stop, error]

/-! ## Arming the tracker -/

/-- C7: on a freshly constructed tracker `increment()` returns 1 and yields the
state `start()` yields: reference count one, not stopped, result okay, the
engine and both streams as constructed. -/
theorem increment_fresh_eq_start (w : Nat) (error output : ostream)
    (engine : encoding_engine) (hw : 0 < w) :
    increment w (construct error output engine) =
      (1, start (construct error output engine)) ∧
    pre_increment w (construct error output engine) =
      start (construct error output engine) ∧
    start (construct error output engine) =
      { stopped_ := false, refcount_ := 1, result_ := console_result.okay,
        engine_ := engine, error_ := error, output_ := output } ∧
    stopped (pre_increment w (construct error output engine)) = false := by
  have h2 : 1 < 2 ^ w := Nat.one_lt_two_pow (Nat.pos_iff_ne_zero.mp hw)
  have h1 : (0 + 1) % 2 ^ w = 1 := Nat.mod_eq_of_lt h2
  have e : increment w (construct error output engine) =
      (1, start (construct error output engine)) := by
    simp [increment, construct, start, h1]
  refine ⟨e, ?_, rfl, ?_⟩
  · simp [pre_increment, e]
  · simp [pre_increment, e, stopped, start]

/-- C7 on a 64-bit counter. -/
theorem increment_fresh_eq_start_witness :
    0 < 64 ∧
    increment 64 (construct ["e"] ["o"] encoding_engine.info) =
      (1, start (construct ["e"] ["o"] encoding_engine.info)) :=
  ⟨by decide, (increment_fresh_eq_start 64 ["e"] ["o"] encoding_engine.info (by decide)).1⟩

/-! ## increment and decrement undo each other -/

/-- C9: on a tracker whose count is a `size_t` value and whose stopped flag is
true exactly when the count is zero, `increment()` then `decrement()` gives the
tracker back, and so does `decrement()` then `increment()`, at every count, zero
and the maximum included; neither call changes result, engine or the streams,
and each returns the count it leaves. -/
theorem increment_decrement_round_trip (w : Nat) (s : callback_state)
    (hlt : s.refcount_ < 2 ^ w) (hinv : completion_invariant s) :
    (decrement w (increment w s).2).2 = s ∧
    (increment w (decrement w s).2).2 = s ∧
    (increment w s).2.result_ = s.result_ ∧ (increment w s).2.engine_ = s.engine_ ∧
    (decrement w s).2.result_ = s.result_ ∧ (decrement w s).2.engine_ = s.engine_ ∧
    (increment w s).1 = (increment w s).2.refcount_ ∧
    (decrement w s).1 = (decrement w s).2.refcount_ := by
  unfold completion_invariant at hinv
  have hi := increment_rest w s
  have hd := decrement_rest w s
  refine ⟨?_, ?_, hi.1, hi.2.1, hd.1, hd.2.1, rfl, rfl⟩
  · have hr := decrement_rest w (increment w s).2
    apply ext_fields
    · rw [decrement_stopped, increment_stopped, increment_refcount,
        add_one_sub_one_mod _ _ hlt]
      by_cases h0 : s.refcount_ = 0
      · simp [h0, hinv.mpr h0]
      · have hs : s.stopped_ = false := by
          cases hst : s.stopped_ with
          | false => rfl
          | true => exact absurd (hinv.mp hst) h0
        by_cases h1 : (s.refcount_ + 1) % 2 ^ w = 0 <;> simp [h0, h1, hs]
    · rw [decrement_refcount, increment_refcount, add_one_sub_one_mod _ _ hlt]
    · rw [hr.1, hi.1]
    · rw [hr.2.1, hi.2.1]
    · rw [hr.2.2.1, hi.2.2.1]
    · rw [hr.2.2.2, hi.2.2.2]
  · have hr := increment_rest w (decrement w s).2
    apply ext_fields
    · rw [increment_stopped, decrement_stopped, decrement_refcount,
        sub_one_add_one_mod _ _ hlt]
      by_cases h0 : s.refcount_ = 0
      · simp [h0, hinv.mpr h0]
      · have hs : s.stopped_ = false := by
          cases hst : s.stopped_ with
          | false => rfl
          | true => exact absurd (hinv.mp hst) h0
        simp [h0, hs]
    · rw [increment_refcount, decrement_refcount, sub_one_add_one_mod _ _ hlt]
    · rw [hr.1, hd.1]
    · rw [hr.2.1, hd.2.1]
    · rw [hr.2.2.1, hd.2.2.1]
    · rw [hr.2.2.2, hd.2.2.2]

/-- C9 at the maximum count of a 64-bit counter. -/
theorem increment_decrement_round_trip_witness :
    SIZE_MAX_64 < 2 ^ 64 ∧
    (decrement 64 (increment 64
      { stopped_ := false, refcount_ := SIZE_MAX_64, result_ := console_result.okay,
        engine_ := encoding_engine.info, error_ := [], output_ := [] }).2).2 =
      { stopped_ := false, refcount_ := SIZE_MAX_64, result_ := console_result.okay,
        engine_ := encoding_engine.info, error_ := [], output_ := [] } :=
  ⟨by decide,
   (increment_decrement_round_trip 64
      { stopped_ := false, refcount_ := SIZE_MAX_64, result_ := console_result.okay,
        engine_ := encoding_engine.info, error_ := [], output_ := [] }
      (by decide) (by decide)).1⟩

/-! ## A stop stays -/

theorem decrements_of_stopped (w : Nat) (n : Nat) :
    ∀ s : callback_state, s.stopped_ = true →
      (decrements w n s).stopped_ = true ∧ (decrements w n s).result_ = s.result_ := by
  induction n with
  | zero => intro s hs; exact ⟨hs, rfl⟩
  | succ n ih =>
    intro s hs
    have h1 : (decrement w s).2.stopped_ = true := by
      rw [decrement_stopped]
      by_cases h : (s.refcount_ + 2 ^ w - 1) % 2 ^ w = 0 <;> simp [h, hs]
    have h2 := ih (decrement w s).2 h1
    simp only [decrements]
    exact ⟨h2.1, h2.2.trans (decrement_rest w s).1⟩

/-- C10: after `stop(r)`, any number of calls of `decrement()` leaves the
tracker stopped with `get_result()` equal to `r`; after `succeeded` has returned
false, any number of calls of `decrement()` leaves it stopped with result
failure. -/
theorem stop_survives_decrements (lib : library) (w : Nat) (s : callback_state)
    (r : console_result) (n : Nat) (code : error_code) (format : String) :
    (stopped (decrements w n (stop s r)) = true ∧
      get_result (decrements w n (stop s r)) = r) ∧
    ((succeeded lib s code format).1 = false →
      stopped (decrements w n (succeeded lib s code format).2) = true ∧
      get_result (decrements w n (succeeded lib s code format).2) =
        console_result.failure) := by
  constructor
  · have := decrements_of_stopped w n (stop s r) rfl
    simpa [stopped, get_result, stop] using this
  · intro hf
    have hc : code.value ≠ 0 := by
      intro h0
      rw [succeeded_of_success lib s code format h0] at hf
      simp at hf
    rw [succeeded_of_error lib s code format hc]
    have := decrements_of_stopped w n
      (stop (error s (lib.boost_format format code.message)) console_result.failure) rfl
    simpa [stopped, get_result, stop] using this

end callback_state

/-! ## send-tx-node -/

namespace commands
namespace send_tx_node

open callback_state

theorem callbacks_connect_error (lib : library) (w : Nat) (output error : ostream)
    (connect_code send_code : error_code) (hc : connect_code.value ≠ 0) :
    callbacks lib w output error connect_code send_code =
      (stop (callback_state.error (pre_increment w (construct_default error output))
        (lib.boost_format lib.default_format connect_code.message))
        console_result.failure, false) := by
  simp [callbacks, session, handle_connect, succeeded_of_error _ _ _ _ hc]

theorem callbacks_send_error (lib : library) (w : Nat) (output error : ostream)
    (connect_code send_code : error_code) (hc : connect_code.value = 0)
    (hs : send_code.value ≠ 0) :
    callbacks lib w output error connect_code send_code =
      (pre_decrement w
        (stop (callback_state.error (pre_increment w (construct_default error output))
          (lib.boost_format lib.default_format send_code.message))
          console_result.failure), true) := by
  simp [callbacks, session, handle_connect, handle_send, succeeded_of_success _ _ _ _ hc,
    succeeded_of_error _ _ _ _ hs]

theorem callbacks_success (lib : library) (w : Nat) (output error : ostream)
    (connect_code send_code : error_code) (hc : connect_code.value = 0)
    (hs : send_code.value = 0) :
    callbacks lib w output error connect_code send_code =
      (pre_decrement w
        (callback_state.output (pre_increment w (construct_default error output))
          (lib.boost_format lib.BX_SEND_TX_NODE_OUTPUT lib.now)), true) := by
  simp [callbacks, session, handle_connect, handle_send, succeeded_of_success _ _ _ _ hc,
    succeeded_of_success _ _ _ _ hs]

theorem pre_increment_fresh (w : Nat) (error output : ostream) :
    (pre_increment w (construct_default error output)).refcount_ = 1 % 2 ^ w ∧
    (pre_increment w (construct_default error output)).result_ = console_result.okay ∧
    (pre_increment w (construct_default error output)).error_ = error ∧
    (pre_increment w (construct_default error output)).output_ = output := by
  have h := increment_rest w (construct_default error output)
  have h2 := increment_refcount w (construct_default error output)
  refine ⟨?_, h.1, h.2.2.1, h.2.2.2⟩
  simpa [construct_default, construct] using h2

theorem success_state (lib : library) (w : Nat) (output error : ostream) :
    (pre_decrement w
      (callback_state.output (pre_increment w (construct_default error output))
        (lib.boost_format lib.BX_SEND_TX_NODE_OUTPUT lib.now))).stopped_ = true ∧
    (pre_decrement w
      (callback_state.output (pre_increment w (construct_default error output))
        (lib.boost_format lib.BX_SEND_TX_NODE_OUTPUT lib.now))).refcount_ = 0 := by
  have hf := pre_increment_fresh w error output
  have hm : (1 % 2 ^ w + 2 ^ w - 1) % 2 ^ w = 0 :=
    one_mod_sub_one_mod (2 ^ w) (Nat.two_pow_pos w)
  constructor
  · unfold pre_decrement
    rw [decrement_stopped]
    simp [callback_state.output, hf.1, hm]
  · unfold pre_decrement
    rw [decrement_refcount]
    simp [callback_state.output, hf.1, hm]

theorem failure_then_decrement (w : Nat) (s : callback_state) (line : String) :
    (pre_decrement w (stop (callback_state.error s line) console_result.failure)).stopped_
      = true ∧
    (pre_decrement w (stop (callback_state.error s line) console_result.failure)).result_
      = console_result.failure ∧
    (pre_decrement w (stop (callback_state.error s line) console_result.failure)).error_
      = s.error_ ++ [line] ∧
    (pre_decrement w (stop (callback_state.error s line) console_result.failure)).output_
      = s.output_ := by
  have h := decrement_rest w (stop (callback_state.error s line) console_result.failure)
  refine ⟨?_, ?_, ?_, ?_⟩
  · unfold pre_decrement
    rw [decrement_stopped]
    simp [stop]
  · exact h.1
  · exact h.2.2.1
  · exact h.2.2.2

theorem output_then_decrement (w : Nat) (s : callback_state) (line : String) :
    (pre_decrement w (callback_state.output s line)).output_ = s.output_ ++ [line] ∧
    (pre_decrement w (callback_state.output s line)).error_ = s.error_ ∧
    (pre_decrement w (callback_state.output s line)).result_ = s.result_ := by
  have h := decrement_rest w (callback_state.output s line)
  exact ⟨h.2.2.2, h.2.2.1, h.1⟩

theorem poll_of_stopped (s : callback_state) (h : s.stopped_ = true) : poll s = some s := by
  simp [poll, stopped, h]

/-- C3: with one connect callback and, when the transaction was handed to the
channel, one send callback, `invoke` returns, and the value it returns is okay
exactly when neither code carries an error, and failure when either does. -/
theorem invoke_result (lib : library) (w : Nat) (output error : ostream)
    (connect_code send_code : error_code) :
    ((invoke lib w output error connect_code send_code).result = some console_result.okay ↔
      connect_code.value = 0 ∧ send_code.value = 0) ∧
    ((connect_code.value ≠ 0 ∨ send_code.value ≠ 0) →
      (invoke lib w output error connect_code send_code).result =
        some console_result.failure) := by
  by_cases hc : connect_code.value = 0
  · by_cases hs : send_code.value = 0
    · have hst := success_state lib w output error
      have hr := output_then_decrement w (pre_increment w (construct_default error output))
        (lib.boost_format lib.BX_SEND_TX_NODE_OUTPUT lib.now)
      have hf := pre_increment_fresh w error output
      have hp := poll_of_stopped _ hst.1
      simp [invoke, callbacks_success lib w output error _ _ hc hs, hp, get_result,
        hr.2.2, hf.2.1, hc, hs]
    · have hft := failure_then_decrement w (pre_increment w (construct_default error output))
        (lib.boost_format lib.default_format send_code.message)
      have hp := poll_of_stopped _ hft.1
      simp [invoke, callbacks_send_error lib w output error _ _ hc hs, hp, get_result,
        hft.2.1, hc, hs]
  · have hp := poll_of_stopped
      (stop (callback_state.error (pre_increment w (construct_default error output))
        (lib.boost_format lib.default_format connect_code.message))
        console_result.failure) rfl
    simp only [invoke, callbacks_connect_error lib w output error _ send_code hc, hp]
    simp [get_result, stop, hc]

/-- C4: the transaction is handed to the channel exactly when the connect code
carries no error. When neither code carries an error the run appends the one
line `BX_SEND_TX_NODE_OUTPUT` formatted with `now()` to the output stream and
nothing to the error stream; otherwise it appends one line, the formatted
message of the failing code, to the error stream and nothing to the output
stream. -/
theorem invoke_console_output (lib : library) (w : Nat) (output error : ostream)
    (connect_code send_code : error_code) :
    ((invoke lib w output error connect_code send_code).sent = true ↔
      connect_code.value = 0) ∧
    (connect_code.value = 0 ∧ send_code.value = 0 →
      (invoke lib w output error connect_code send_code).output =
        output ++ [lib.boost_format lib.BX_SEND_TX_NODE_OUTPUT lib.now] ∧
      (invoke lib w output error connect_code send_code).error = error) ∧
    (connect_code.value ≠ 0 →
      (invoke lib w output error connect_code send_code).error =
        error ++ [lib.boost_format lib.default_format connect_code.message] ∧
      (invoke lib w output error connect_code send_code).output = output) ∧
    (connect_code.value = 0 ∧ send_code.value ≠ 0 →
      (invoke lib w output error connect_code send_code).error =
        error ++ [lib.boost_format lib.default_format send_code.message] ∧
      (invoke lib w output error connect_code send_code).output = output) := by
  have hf := pre_increment_fresh w error output
  by_cases hc : connect_code.value = 0
  · by_cases hs : send_code.value = 0
    · have hr := output_then_decrement w (pre_increment w (construct_default error output))
        (lib.boost_format lib.BX_SEND_TX_NODE_OUTPUT lib.now)
      simp [invoke, callbacks_success lib w output error _ _ hc hs, hc, hs,
        hr.1, hr.2.1, hf.2.2.1, hf.2.2.2]
    · have hft := failure_then_decrement w (pre_increment w (construct_default error output))
        (lib.boost_format lib.default_format send_code.message)
      simp [invoke, callbacks_send_error lib w output error _ _ hc hs, hc, hs,
        hft.2.2.1, hft.2.2.2, hf.2.2.1, hf.2.2.2]
  · simp [invoke, callbacks_connect_error lib w output error _ send_code hc, hc, stop,
      callback_state.error, hf.2.2.1, hf.2.2.2]

/-- C6, the failing run: the connect code carries no error and the send code
carries one. `handle_send` first zeroizes the count through `succeeded`, then
applies `--state` to the zero count, and the 64-bit counter ends at its maximum
value with the tracker stopped. -/
theorem send_error_decrements_zero_count :
    (handle_connect sample_library
      (pre_increment 64 (construct_default [] [])) sample_success).2 = true ∧
    (succeeded sample_library (pre_increment 64 (construct_default [] []))
      sample_failure sample_library.default_format).1 = false ∧
    (succeeded sample_library (pre_increment 64 (construct_default [] []))
      sample_failure sample_library.default_format).2.refcount_ = 0 ∧
    (callbacks sample_library 64 [] [] sample_success sample_failure).1.refcount_
      = SIZE_MAX_64 ∧
    (callbacks sample_library 64 [] [] sample_success sample_failure).1.stopped_ = true := by
  decide

end send_tx_node
end commands

/-! ## settings -/

namespace commands
namespace settings

variable {endpoint base85 ptree : Type}

theorem find_assign (list : settings_list) (key value other : String) :
    find (assign list key value) other =
      if other = key then some value else find list other := by
  induction list with
  | nil =>
    by_cases h : other = key
    · subst h; simp [assign, find]
    · have h2 : ¬ key = other := fun e => h e.symm
      simp [assign, find, h, h2]
  | cons e rest ih =>
    obtain ⟨k, v⟩ := e
    unfold assign
    by_cases h1 : key = k
    · subst h1
      by_cases h : other = key
      · subst h; simp [find]
      · have h2 : ¬ key = other := fun e => h e.symm
        simp [find, h, h2]
    · by_cases h3 : key.data < k.data
      · by_cases h : other = key
        · subst h; simp [find, h1, h3]
        · have h2 : ¬ key = other := fun e => h e.symm
          simp [find, h, h2, h1, h3]
      · simp only [h1, h3, if_false]
        by_cases h : other = key
        · subst h
          have h4 : ¬ k = other := fun e => h1 e.symm
          have := ih
          simp [find, h4] at this ⊢
          exact this
        · by_cases h5 : k = other
          · simp [find, h5, h]
          · have := ih
            simp [find, h5, h] at this ⊢
            exact this

set_option maxHeartbeats 4000000 in
theorem keys_build_list (lib : settings_library endpoint base85 ptree)
    (cfg : configuration endpoint base85) :
    keys (build_list lib cfg) = expected_keys := by
  simp +decide [build_list, assign, keys, expected_keys]

theorem foldl_push_back (f : endpoint → String) (seeds : List endpoint) :
    ∀ buffer : List String,
      seeds.foldl (fun buffer seed => buffer ++ [f seed]) buffer = buffer ++ seeds.map f := by
  induction seeds with
  | nil => intro buffer; simp
  | cons a l ih => intro buffer; simp [ih]

theorem seeds_value_eq (lib : settings_library endpoint base85 ptree)
    (cfg : configuration endpoint base85) :
    seeds_value lib cfg =
      join ((if cfg.network_seeds.isEmpty then lib.mainnet else cfg.network_seeds).map
        lib.to_string) "," := by
  simp [seeds_value, foldl_push_back]

theorem length_eq_zero_imp (a : String) (h : a.length = 0) : a = "" := by
  cases a with
  | mk d =>
    simp [String.length] at h
    subst h
    rfl

theorem join_ne_empty (delimiter : String) (words : List String) (hne : words ≠ [])
    (h : ∀ word ∈ words, word ≠ "") : join words delimiter ≠ "" := by
  have hfirst : ∀ (word : String) (rest : List String), word ≠ "" →
      join (word :: rest) delimiter ≠ "" := by
    intro word rest hw
    cases rest with
    | nil => simpa [join] using hw
    | cons next rest =>
      intro h2
      have hl : (word ++ delimiter ++ join (next :: rest) delimiter).length = 0 := by
        simp only [join] at h2
        rw [h2]
        rfl
      rw [String.length_append, String.length_append] at hl
      exact hw (length_eq_zero_imp word (by omega))
  cases words with
  | nil => exact absurd rfl hne
  | cons a l => exact hfirst a l (h a (by simp))

/-- C5: for every configuration and every format option `settings::invoke`
returns okay, leaves the error stream as it was and writes the property tree of
its `settings_list` to the output stream; the list has exactly 19 distinct keys,
six under `wallet.`, eight under `network.` and five under `server.`, each
holding the text of the configured setting of that name (for `network.seeds`
the joined seed list of lines 73 to 82). -/
theorem invoke_dumps_settings (lib : settings_library endpoint base85 ptree)
    (cfg : configuration endpoint base85) (output error : ostream) :
    (invoke lib cfg output error).result = console_result.okay ∧
    (invoke lib cfg output error).error = error ∧
    (invoke lib cfg output error).output =
      lib.write_stream output (lib.prop_tree (build_list lib cfg)) cfg.format_option ∧
    keys (build_list lib cfg) = expected_keys ∧
    (keys (build_list lib cfg)).Nodup ∧
    (keys (build_list lib cfg)).length = 19 ∧
    find (build_list lib cfg) "wallet.wif_version"
      = some (lib.serialize cfg.wallet_wif_version) ∧
    find (build_list lib cfg) "wallet.hd_public_version"
      = some (lib.serialize cfg.wallet_hd_public_version) ∧
    find (build_list lib cfg) "wallet.hd_secret_version"
      = some (lib.serialize cfg.wallet_hd_secret_version) ∧
    find (build_list lib cfg) "wallet.pay_to_public_key_hash_version"
      = some (lib.serialize cfg.wallet_pay_to_public_key_hash_version) ∧
    find (build_list lib cfg) "wallet.pay_to_script_hash_version"
      = some (lib.serialize cfg.wallet_pay_to_script_hash_version) ∧
    find (build_list lib cfg) "wallet.transaction_version"
      = some (lib.serialize cfg.wallet_transaction_version) ∧
    find (build_list lib cfg) "network.identifier"
      = some (lib.serialize cfg.network_identifier) ∧
    find (build_list lib cfg) "network.connect_retries"
      = some (lib.serialize cfg.network_connect_retries) ∧
    find (build_list lib cfg) "network.connect_timeout_seconds"
      = some (lib.serialize cfg.network_connect_timeout_seconds) ∧
    find (build_list lib cfg) "network.channel_handshake_seconds"
      = some (lib.serialize cfg.network_channel_handshake_seconds) ∧
    find (build_list lib cfg) "network.hosts_file" = some cfg.network_hosts_file ∧
    find (build_list lib cfg) "network.debug_file" = some cfg.network_debug_file ∧
    find (build_list lib cfg) "network.error_file" = some cfg.network_error_file ∧
    find (build_list lib cfg) "network.seeds" = some (seeds_value lib cfg) ∧
    find (build_list lib cfg) "server.url" = some (lib.to_string cfg.server_url) ∧
    find (build_list lib cfg) "server.connect_retries"
      = some (lib.serialize cfg.server_connect_retries) ∧
    find (build_list lib cfg) "server.connect_timeout_seconds"
      = some (lib.serialize cfg.server_connect_timeout_seconds) ∧
    find (build_list lib cfg) "server.server_cert_key"
      = some (lib.get_base85 cfg.server_server_cert_key) ∧
    find (build_list lib cfg) "server.cert_file" = some cfg.server_cert_file := by
  refine ⟨rfl, rfl, rfl, keys_build_list lib cfg, ?_, ?_, ?_⟩
  · rw [keys_build_list lib cfg]
    decide
  · rw [keys_build_list lib cfg]
    rfl
  · simp [build_list, find_assign]

/-- C8: the text stored under `network.seeds` is the `to_string` of each seed
in order joined by "," : of the configured seeds when that list is not empty,
of `network::session_seed::mainnet` when it is. When no `to_string` is empty,
the stored text is empty only if the mainnet list is empty. -/
theorem seeds_setting (lib : settings_library endpoint base85 ptree)
    (cfg : configuration endpoint base85) :
    find (build_list lib cfg) "network.seeds" = some (seeds_value lib cfg) ∧
    (cfg.network_seeds ≠ [] →
      seeds_value lib cfg = join (cfg.network_seeds.map lib.to_string) ",") ∧
    (cfg.network_seeds = [] →
      seeds_value lib cfg = join (lib.mainnet.map lib.to_string) ",") ∧
    ((∀ seed, lib.to_string seed ≠ "") → seeds_value lib cfg = "" →
      cfg.network_seeds = [] ∧ lib.mainnet = []) := by
  refine ⟨?_, ?_, ?_, ?_⟩
  · simp [build_list, find_assign]
  · intro h
    rw [seeds_value_eq]
    simp [h]
  · intro h
    rw [seeds_value_eq]
    simp [h]
  · intro hto hval
    rw [seeds_value_eq] at hval
    by_cases hn : cfg.network_seeds = []
    · refine ⟨hn, ?_⟩
      by_contra hm
      simp only [hn, List.isEmpty_nil, if_true] at hval
      refine join_ne_empty "," _ ?_ ?_ hval
      · simpa using hm
      · intro word hw
        obtain ⟨seed, _, rfl⟩ := List.mem_map.mp hw
        exact hto seed
    · exfalso
      have he : cfg.network_seeds.isEmpty = false := by
        cases hs : cfg.network_seeds with
        | nil => exact absurd hs hn
        | cons a l => rfl
      simp only [he] at hval
      refine join_ne_empty "," _ ?_ ?_ hval
      · simpa using hn
      · intro word hw
        obtain ⟨seed, _, rfl⟩ := List.mem_map.mp hw
        exact hto seed

end settings
end commands

end explorer
end libbitcoin
